import Mathlib

/-!
# MMA reaction trainer: round / interval scheduler

A shallow embedding of the trainer script (the richer of the two variants, the
one with rounds, rest periods and pause / resume).  The script is a set of
global variables, a handful of DOM inputs and outputs, and callbacks handed to
`setTimeout` / `setInterval`.  Here

* the globals, the DOM values and the table of pending timers are one record
  `State`;
* every closure passed to the timer facility is a constructor of `Callback`
  carrying the variables the closure captures;
* `Math.random()` is an oracle `rnd : Nat → ℚ` read at the position `State.draws`;
* numbers that the script handles as floats are rationals (exact arithmetic);
* every Display write and Announcer call is appended to `State.trace`, and the handle of
  every timer whose callback has run to `State.fired`.

The timer facility of the page is modelled as follows.  Time is a number of milliseconds.
A timer is due at the time it was set plus its timeout; pending callbacks run one at a time,
the one due first, and among callbacks due at the same time the one whose timer was set
first (`nextTimer`).  When a callback runs the clock is at its due time.  A timeout below
4 ms set from a task of nesting level above 5 is raised to 4 ms, as in the timer
initialisation steps of the HTML standard (`clampDelay`).  User actions happen between
callbacks (`Event`).
-/

namespace MmaTrainer

/-! ## Vocabulary -/

def singles : List String :=
  ["Jab", "Cross", "Hook", "Uppercut", "Low Kick", "High Kick", "Elbow",
   "Teep", "Knee", "Slip", "Block", "Sprawl"]

def combos : List String :=
  ["Jab Cross", "Jab Cross Hook", "Cross Hook Low Kick", "Jab Cross Uppercut",
   "Jab Jab Cross", "Cross Body Hook", "Jab Cross Hook Low Kick"]

def defenses : List String :=
  ["Slip Left", "Slip Right", "Block", "Sprawl", "Clinch", "Pivot Out", "Check Kick", "Parry"]

/-- The object literal `simpleCounter`, as its list of key / value pairs. -/
def simpleCounter : List (String × String) :=
  [("Slip Left", "Cross"), ("Slip Right", "Cross"), ("Block", "Uppercut"),
   ("Sprawl", "Cross"), ("Clinch", "Knee"), ("Pivot Out", "Jab"),
   ("Check Kick", "Jab Cross"), ("Parry", "Jab Cross Hook")]

/-! ## Call generation -/

/-- A JavaScript string value that may be `undefined` (`none`), rendered as text. -/
def jsStr (v : Option String) : String := v.getD "undefined"

/-- The value of `arr[Math.floor(r * arr.length)]`, `none` being `undefined`. -/
def randFrom (arr : List String) (r : ℚ) : Option String :=
  let i : Int := ⌊r * (arr.length : ℚ)⌋
  if i < 0 then none else arr[i.toNat]?

/-- The value of `simpleCounter[d]`, `none` being `undefined`. -/
def lookupCounter (d : Option String) : Option String :=
  simpleCounter.lookup (jsStr d)

/-- What `getCallForMode` returns: a plain label or a counter object. -/
inductive Call
  | simple (label : Option String)
  | counter (defense : Option String) (counter : Option String) (text : String)
  deriving DecidableEq, Repr

/-- The function `getCallForMode(mode)`.  The random draws are `rnd k`, `rnd (k+1)`, ...;
the second component is the position after the draws that were consumed. -/
def getCallForMode (rnd : Nat → ℚ) (k : Nat) (mode : String) : Call × Nat :=
  if mode = "single" then (Call.simple (randFrom singles (rnd k)), k + 1)
  else if mode = "combo" then (Call.simple (randFrom combos (rnd k)), k + 1)
  else if mode = "mixed" then
    (if rnd k > 1 / 2 then (Call.simple (randFrom singles (rnd (k + 1))), k + 2)
     else (Call.simple (randFrom combos (rnd (k + 1))), k + 2))
  else if mode = "intensity" then (Call.simple (randFrom singles (rnd k)), k + 1)
  else if mode = "defense" then (Call.simple (randFrom defenses (rnd k)), k + 1)
  else if mode = "counter_simple" then
    let d := randFrom defenses (rnd k)
    match lookupCounter d with
    | some c =>
      if c = "" then
        let c2 := randFrom singles (rnd (k + 1))
        (Call.counter d c2 (jsStr d ++ " → " ++ jsStr c2), k + 2)
      else (Call.counter d (some c) (jsStr d ++ " → " ++ c), k + 1)
    | none =>
      let c2 := randFrom singles (rnd (k + 1))
      (Call.counter d c2 (jsStr d ++ " → " ++ jsStr c2), k + 2)
  else if mode = "counter_combo" then
    let d := randFrom defenses (rnd k)
    let combo := randFrom combos (rnd (k + 1))
    (Call.counter d combo (jsStr d ++ " → " ++ jsStr combo), k + 2)
  else (Call.simple (randFrom singles (rnd k)), k + 1)

/-! ## Delay policy -/

/-- The idiom `parseFloat(v) || d`: a value that is not a number (`none`) or zero gives `d`. -/
def orElse (v : Option ℚ) (d : ℚ) : ℚ :=
  match v with
  | some x => if x = 0 then d else x
  | none => d

/-- The idiom `parseInt(v) || d`. -/
def orElseInt (v : Option Int) (d : Int) : Int :=
  match v with
  | some x => if x = 0 then d else x
  | none => d

/-- The local variable `min` of `nextDelayMs` after the intensity adjustment. -/
def adjMin (minV : Option ℚ) (intensity : String) : ℚ :=
  let min0 := orElse minV 1
  let min1 := if intensity = "slow" then min0 + 4 / 5 else min0
  if intensity = "fast" then max (1 / 5) (min1 - 1 / 2) else min1

/-- The local variable `max` of `nextDelayMs` after the intensity adjustment. -/
def adjMax (minV maxV : Option ℚ) (intensity : String) : ℚ :=
  let min0 := orElse minV 1
  let max0 := orElse maxV (max min0 1)
  let max1 := if intensity = "slow" then max0 + 6 / 5 else max0
  if intensity = "fast" then max (adjMin minV intensity) (max1 - 4 / 5) else max1

/-- The function `nextDelayMs()`, given the parsed values of the two delay inputs, the
intensity and the random draw. -/
def nextDelayMs (minV maxV : Option ℚ) (intensity : String) (r : ℚ) : ℚ :=
  let lo := adjMin minV intensity
  let hi := adjMax minV maxV intensity
  let a := min lo hi
  let b := max lo hi
  (r * (b - a) + a) * 1000

/-! ## The delay bounds and the vocabularies in the words of the specification -/

/-- The vocabulary of a mode in the words of the specification. -/
def inVocabulary (mode : String) (c : Call) : Prop :=
  if mode = "single" ∨ mode = "intensity" then ∃ x ∈ singles, c = Call.simple (some x)
  else if mode = "combo" then ∃ x ∈ combos, c = Call.simple (some x)
  else if mode = "mixed" then ∃ x, (x ∈ singles ∨ x ∈ combos) ∧ c = Call.simple (some x)
  else if mode = "defense" then ∃ x ∈ defenses, c = Call.simple (some x)
  else if mode = "counter_simple" then
    ∃ d ∈ defenses, ∃ x text, c = Call.counter (some d) (some x) text ∧
      ∀ m, simpleCounter.lookup d = some m → x = m
  else if mode = "counter_combo" then
    ∃ d ∈ defenses, ∃ x ∈ combos, ∃ text, c = Call.counter (some d) (some x) text
  else True

/-! ## Session state and the timer facility -/

/-- The closures the script hands to `setTimeout` and `setInterval`, each with the variables
it captures. -/
inductive Callback
  /-- The closure `()=> playBell(bellSelect.value)` of the second and third ready bell. -/
  | bell
  /-- The closure started 1800 ms after the first bell; captures `currentMode`, `roundSecs`
  and `restSecs`. -/
  | roundStart (currentMode : String) (roundSecs : Int) (restSecs : Int)
  /-- The closure of `scheduleNextCall`; captures `currentMode`. -/
  | call (currentMode : String)
  /-- The closure `()=> speak(call.counter)`. -/
  | speakCounter (counter : Option String)
  /-- The closure of `flashVisual` that removes the flash classes. -/
  | flashOff
  /-- The countdown closure of the round; captures `remain`. -/
  | roundTick (remain : Int)
  /-- The closure of `roundTimer`; captures `restSecs`. -/
  | roundEnd (restSecs : Int)
  /-- The countdown closure of the rest period; captures `restRemain`. -/
  | restTick (restRemain : Int)
  /-- The closure of `restTimer`. -/
  | restEnd
  /-- The closure `()=> startTraining()` of the change handlers. -/
  | restart
  deriving DecidableEq, Repr

/-- An entry of the timer table of the page. -/
structure Timer where
  /-- The handle returned by `setTimeout` / `setInterval`. -/
  id : Nat
  /-- The time, in milliseconds, at which the callback is due. -/
  fireAt : Nat
  /-- The period of a `setInterval` timer, `none` for a `setTimeout` timer. -/
  period : Option Nat
  /-- The timer nesting level of the HTML timer initialisation steps. -/
  nest : Nat
  cb : Callback
  deriving DecidableEq, Repr

/-- The calls made to the Display and to the Announcer. -/
inductive Effect
  | stateText (v : String)
  | callText (v : String)
  | roundNumber (v : String)
  | countdown (v : String)
  | flash (kind : String)
  | flashOff
  | bell (kind : String)
  | speak (text : String)
  | speechCancel
  deriving DecidableEq, Repr

/-- The globals of the script, the DOM values it reads and writes, and the timer table. -/
structure State where
  running : Bool
  paused : Bool
  callTimer : Option Nat
  roundTimer : Option Nat
  restTimer : Option Nat
  countdownInterval : Option Nat
  currentRound : Nat
  roundsTotal : Int
  /-- The value of the mode selector. -/
  modeSelect : String
  /-- The value of the intensity selector. -/
  intensitySelect : String
  /-- The result of `parseFloat(minInput.value)`, `none` when it is not a number. -/
  minInput : Option ℚ
  /-- The result of `parseFloat(maxInput.value)`. -/
  maxInput : Option ℚ
  /-- The result of `parseInt(roundInput.value)`. -/
  roundInput : Option Int
  /-- The result of `parseInt(restInput.value)`. -/
  restInput : Option Int
  /-- The result of `parseInt(roundCountInput.value)`. -/
  roundCountInput : Option Int
  /-- The value of the bell selector. -/
  bellSelect : String
  stateText : String
  callText : String
  roundNumberText : String
  roundCountdownText : String
  /-- The clock of the page, in milliseconds. -/
  now : Nat
  /-- The next timer handle. -/
  nextId : Nat
  /-- The timers that are set and have not been cleared. -/
  pending : List Timer
  /-- The nesting level of the task that is running (0 for a user action). -/
  nest : Nat
  /-- The number of `Math.random()` draws made so far. -/
  draws : Nat
  /-- The Display writes and Announcer calls made so far, oldest first. -/
  trace : List Effect
  /-- The handles of the timers whose callback has run, oldest first. -/
  fired : List Nat
  deriving DecidableEq, Repr

/-- Appends one Display write or Announcer call to the trace. -/
@[simps]
def emit (e : Effect) (s : State) : State :=
  { s with trace := s.trace ++ [e] }

/-- The timeout of a timer: a timeout below 4 ms set from nesting level above 5 becomes 4 ms
(timer initialisation steps of the HTML standard). -/
def clampDelay (nest delay : Nat) : Nat :=
  if 5 < nest ∧ delay < 4 then 4 else delay

/-- The call `setTimeout(cb, delay)`; the handle it returns is the former `nextId`. -/
@[simps]
def setTimeout (cb : Callback) (delay : Nat) (s : State) : State :=
  { s with
    pending := s.pending ++
      [{ id := s.nextId, fireAt := s.now + clampDelay s.nest delay, period := none,
         nest := s.nest + 1, cb := cb }]
    nextId := s.nextId + 1 }

/-- The call `setInterval(cb, period)`; the handle it returns is the former `nextId`. -/
@[simps]
def setInterval (cb : Callback) (period : Nat) (s : State) : State :=
  { s with
    pending := s.pending ++
      [{ id := s.nextId, fireAt := s.now + clampDelay s.nest period, period := some period,
         nest := s.nest + 1, cb := cb }]
    nextId := s.nextId + 1 }

/-- The timer table without the timers of handle `h`. -/
def removeId (h : Nat) (ts : List Timer) : List Timer :=
  ts.filter (fun t => t.id != h)

/-- The timer table without the timers of the handle held by a variable; a `null` handle
removes nothing. -/
def removeHandle (h : Option Nat) (ts : List Timer) : List Timer :=
  match h with
  | none => ts
  | some i => removeId i ts

/-- The calls `clearTimeout(h)` and `clearInterval(h)`. -/
@[simps]
def clearTimer (h : Option Nat) (s : State) : State :=
  { s with pending := removeHandle h s.pending }

/-- The number of milliseconds of a timeout given as a number: negative values count as zero
and the fraction is dropped. -/
def toMs (d : ℚ) : Nat := (⌊d⌋ : Int).toNat

/-! ## Audio, speech and display helpers -/

/-- The function `playBell(type)`: one emission of the signal.  Every call in the script
passes `bellSelect.value`, read when the call is made. -/
def playBell (s : State) : State := emit (Effect.bell s.bellSelect) s

/-- The function `speak(text)`: one utterance.  The choice of voice, rate and pitch stays
inside the Announcer. -/
def speak (text : Option String) (s : State) : State := emit (Effect.speak (jsStr text)) s

/-- The function `flashVisual(kind)`; the removal of the flash is an untracked timeout. -/
def flashVisual (kind : String) (s : State) : State :=
  setTimeout Callback.flashOff 220 (emit (Effect.flash kind) s)

/-- The padding `String(n).padStart(2, "0")`. -/
def pad2 (n : Int) : String :=
  let t := toString n
  if t.length < 2 then "0" ++ t else t

/-- The function `updateCountdownDisplay(sec)`. -/
def updateCountdownDisplay (sec : Int) (s : State) : State :=
  let text := pad2 (Int.fdiv sec 60) ++ ":" ++ pad2 (Int.tmod sec 60)
  emit (Effect.countdown text) { s with roundCountdownText := text }

/-- The assignment `stateText.textContent = v`. -/
def setStateText (v : String) (s : State) : State :=
  emit (Effect.stateText v) { s with stateText := v }

/-- The assignment `callText.textContent = v`. -/
def setCallText (v : String) (s : State) : State :=
  emit (Effect.callText v) { s with callText := v }

/-- The assignment `roundNumberText.textContent = v`. -/
def setRoundNumberText (v : String) (s : State) : State :=
  emit (Effect.roundNumber v) { s with roundNumberText := v }

/-- The assignment `roundCountdownText.textContent = v`. -/
def setCountdownText (v : String) (s : State) : State :=
  emit (Effect.countdown v) { s with roundCountdownText := v }

/-! ## Scheduling: round, calls, rest -/

/-- The function `clearAllTimers()`. -/
def clearAllTimers (s : State) : State :=
  let s := { clearTimer s.callTimer s with callTimer := none }
  let s := { clearTimer s.roundTimer s with roundTimer := none }
  let s := { clearTimer s.restTimer s with restTimer := none }
  { clearTimer s.countdownInterval s with countdownInterval := none }

/-- The function `scheduleNextCall(currentMode)`, up to the closure it sets. -/
def scheduleNextCall (rnd : Nat → ℚ) (currentMode : String) (s : State) : State :=
  if !s.running || s.paused then s
  else if currentMode = "intensity" then
    { setTimeout (Callback.call currentMode) 450 s with callTimer := some s.nextId }
  else
    let delay := nextDelayMs s.minInput s.maxInput s.intensitySelect (rnd s.draws)
    let s := { s with draws := s.draws + 1 }
    { setTimeout (Callback.call currentMode) (toMs delay) s with callTimer := some s.nextId }

/-- The two branches of the call closure that show and speak the call: a counter object is
shown, its defense spoken and its counter spoken 650 ms later by an untracked timeout; a plain
label is shown and spoken. -/
def announceCall (call : Call) (s : State) : State :=
  match call with
  | Call.counter d c text =>
    let s := setCallText text s
    let s := flashVisual "danger" s
    let s := speak d s
    setTimeout (Callback.speakCounter c) 650 s
  | Call.simple c =>
    let s := setCallText (jsStr c) s
    let s := flashVisual "accent" s
    speak c s

/-- The closure set by `scheduleNextCall`. -/
def callFired (rnd : Nat → ℚ) (currentMode : String) (s : State) : State :=
  if !s.running || s.paused then s
  else
    let r := getCallForMode rnd s.draws currentMode
    let s := { s with draws := r.2 }
    let s := announceCall r.1 s
    scheduleNextCall rnd currentMode s

/-- The function `startRoundSequence()`, up to the closures it sets. -/
def startRoundSequence (s : State) : State :=
  let currentMode := s.modeSelect
  let roundSecs := max 1 (orElseInt s.roundInput 60)
  let restSecs := max 1 (orElseInt s.restInput 20)
  let s := { s with roundsTotal := orElseInt s.roundCountInput 0 }
  let s := clearAllTimers s
  let s := setStateText "Get Ready..." s
  let s := setCallText "Get Ready" s
  let s := playBell s
  let s := setTimeout Callback.bell 700 s
  let s := setTimeout Callback.bell 1400 s
  setTimeout (Callback.roundStart currentMode roundSecs restSecs) 1800 s

/-- The closure of `startRoundSequence` that starts the round. -/
def roundStartFired (rnd : Nat → ℚ) (currentMode : String) (roundSecs restSecs : Int)
    (s : State) : State :=
  let s := setStateText "Training" s
  let s := scheduleNextCall rnd currentMode s
  let s := updateCountdownDisplay roundSecs s
  let s := { setInterval (Callback.roundTick roundSecs) 1000 s with
             countdownInterval := some s.nextId }
  { setTimeout (Callback.roundEnd restSecs) (roundSecs * 1000).toNat s with
    roundTimer := some s.nextId }

/-- The countdown closure of the round, with the new value of its variable `remain`. -/
def roundTickFired (remain : Int) (s : State) : State × Callback :=
  if s.paused then (s, Callback.roundTick remain)
  else
    let remain := remain - 1
    let s := updateCountdownDisplay remain s
    let s := if remain ≤ 0 then clearTimer s.countdownInterval s else s
    (s, Callback.roundTick remain)

/-- The closure of `roundTimer`: end of the round, start of the rest period. -/
def roundEndFired (restSecs : Int) (s : State) : State :=
  let s := { clearTimer s.callTimer s with callTimer := none }
  let s := playBell s
  let s := setStateText "Round Ended" s
  let s := setCallText "" s
  let s := updateCountdownDisplay restSecs s
  let s := { setInterval (Callback.restTick restSecs) 1000 s with
             countdownInterval := some s.nextId }
  { setTimeout Callback.restEnd (restSecs * 1000).toNat s with restTimer := some s.nextId }

/-- The countdown closure of the rest period, with the new value of `restRemain`. -/
def restTickFired (restRemain : Int) (s : State) : State × Callback :=
  if s.paused then (s, Callback.restTick restRemain)
  else
    let restRemain := restRemain - 1
    let s := updateCountdownDisplay restRemain s
    let s := if restRemain ≤ 0 then clearTimer s.countdownInterval s else s
    (s, Callback.restTick restRemain)

/-! ## Round control -/

/-- The function `runNextRound()`. -/
def runNextRound (s : State) : State :=
  if !s.running then s
  else
    let s := { s with currentRound := s.currentRound + 1 }
    let s := setRoundNumberText (toString s.currentRound) s
    startRoundSequence s

/-- The function `startTraining()`. -/
def startTraining (s : State) : State :=
  if s.running then s
  else
    let s := { s with running := true, paused := false, currentRound := 0 }
    let s := setRoundNumberText "0" s
    let s := setStateText "Starting" s
    runNextRound s

/-- The function `stopTraining()`. -/
def stopTraining (s : State) : State :=
  let s := { s with running := false, paused := false }
  let s := clearAllTimers s
  let s := emit Effect.speechCancel s
  let s := setStateText "Stopped" s
  let s := setCallText "" s
  let s := setRoundNumberText "0" s
  setCountdownText "00:00" s

/-- The function `pauseTraining()`. -/
def pauseTraining (s : State) : State :=
  if !s.running || s.paused then s
  else
    let s := { s with paused := true }
    let s := setStateText "Paused" s
    emit Effect.speechCancel s

/-- The function `resumeTraining()`. -/
def resumeTraining (rnd : Nat → ℚ) (s : State) : State :=
  if !s.running || !s.paused then s
  else
    let s := { s with paused := false }
    let s := setStateText "Resumed" s
    scheduleNextCall rnd s.modeSelect s

/-- The function `resetTraining()`. -/
def resetTraining (s : State) : State :=
  let s := stopTraining s
  let s := { s with
    minInput := some 1, maxInput := some 3, roundInput := some 60, restInput := some 20,
    roundCountInput := some 3, modeSelect := "single", intensitySelect := "normal",
    bellSelect := "ding" }
  let s := setStateText "Ready" s
  let s := setCallText "Ready" s
  let s := setCountdownText "00:00" s
  let s := { s with currentRound := 0 }
  setRoundNumberText "0" s

/-- The closure of `restTimer`: finish the session or start the next round. -/
def restEndFired (s : State) : State :=
  let s := { clearTimer s.restTimer s with restTimer := none }
  if 0 < s.roundsTotal ∧ s.roundsTotal ≤ (s.currentRound : Int) then
    setStateText "Finished" (stopTraining s)
  else runNextRound s

/-- The change handler of the mode and intensity selectors. -/
def restartOnChange (s : State) : State :=
  if s.running && !s.paused then setTimeout Callback.restart 120 (stopTraining s) else s

/-! ## Running callbacks and user actions -/

/-- The body of a callback, run on the state in which its timer fires; the second component
is the closure with the new values of its captured variables. -/
def runCallback (rnd : Nat → ℚ) (cb : Callback) (s : State) : State × Callback :=
  match cb with
  | Callback.bell => (playBell s, cb)
  | Callback.roundStart m r q => (roundStartFired rnd m r q s, cb)
  | Callback.call m => (callFired rnd m s, cb)
  | Callback.speakCounter c => (speak c s, cb)
  | Callback.flashOff => (emit Effect.flashOff s, cb)
  | Callback.roundTick r => roundTickFired r s
  | Callback.roundEnd q => (roundEndFired q s, cb)
  | Callback.restTick r => restTickFired r s
  | Callback.restEnd => (restEndFired s, cb)
  | Callback.restart => (startTraining s, cb)

/-- Whether timer `a` runs before timer `b`: the earlier due time first, and for equal due
times the timer that was set first. -/
def earlier (a b : Timer) : Bool :=
  a.fireAt < b.fireAt || (a.fireAt == b.fireAt && a.id ≤ b.id)

/-- The pending timer that runs next. -/
def nextTimer : List Timer → Option Timer
  | [] => none
  | t :: ts =>
    match nextTimer ts with
    | none => some t
    | some u => if earlier t u then some t else some u

/-- The state in which the callback of timer `t` starts: the clock is at the due time of the
timer (or later), the task has the nesting level of the timer, and a `setTimeout` timer has
left the table. -/
@[simps]
def dispatch (t : Timer) (s : State) : State :=
  { s with
    now := max s.now t.fireAt
    nest := t.nest
    fired := s.fired ++ [t.id]
    pending := if t.period.isNone then removeId t.id s.pending else s.pending }

/-- After the callback of timer `t` has run, with result `r`: a `setInterval` timer that the
callback did not clear is set again one period later, with the new values of the variables
its closure captures. -/
def rearm (t : Timer) (r : State × Callback) : State :=
  match t.period with
  | none => r.1
  | some p =>
    if r.1.pending.any (fun u => u.id == t.id) then
      { r.1 with
        pending := removeId t.id r.1.pending ++
          [{ t with fireAt := r.1.now + clampDelay (t.nest + 1) p, nest := t.nest + 1,
                    cb := r.2 }] }
    else r.1

/-- The timer facility runs the callback of the pending timer `t`. -/
def fireTimer (rnd : Nat → ℚ) (t : Timer) (s : State) : State :=
  rearm t (runCallback rnd t.cb (dispatch t s))

/-- The timer facility runs the next pending callback, if there is one. -/
def fire (rnd : Nat → ℚ) (s : State) : State :=
  match nextTimer s.pending with
  | none => s
  | some t => fireTimer rnd t s

/-- The due time of the next pending timer. -/
def nextDue (s : State) : Option Nat := (nextTimer s.pending).map Timer.fireAt

/-- Time passes by `dt` milliseconds without any callback running: the clock does not pass
the due time of a pending timer. -/
def elapse (dt : Nat) (s : State) : State :=
  match nextDue s with
  | none => { s with now := s.now + dt }
  | some d => { s with now := min (s.now + dt) (max s.now d) }

/-- What can happen to the page: the timer facility runs a callback, time passes, the user
clicks a button or changes an input. -/
inductive Event
  | fire
  | elapse (dt : Nat)
  | clickStart
  | clickStop
  | clickPause
  | clickResume
  | clickReset
  | changeMode (v : String)
  | changeIntensity (v : String)
  | changeMin (v : Option ℚ)
  | changeMax (v : Option ℚ)
  | changeRound (v : Option Int)
  | changeRest (v : Option Int)
  | changeRoundCount (v : Option Int)
  | changeBell (v : String)

/-- One event.  A user action is a task of nesting level 0. -/
def step (rnd : Nat → ℚ) (s : State) (e : Event) : State :=
  match e with
  | Event.fire => fire rnd s
  | Event.elapse dt => elapse dt s
  | Event.clickStart => startTraining { s with nest := 0 }
  | Event.clickStop => stopTraining { s with nest := 0 }
  | Event.clickPause => pauseTraining { s with nest := 0 }
  | Event.clickResume => resumeTraining rnd { s with nest := 0 }
  | Event.clickReset => resetTraining { s with nest := 0 }
  | Event.changeMode v => restartOnChange { s with nest := 0, modeSelect := v }
  | Event.changeIntensity v => restartOnChange { s with nest := 0, intensitySelect := v }
  | Event.changeMin v => { s with minInput := v }
  | Event.changeMax v => { s with maxInput := v }
  | Event.changeRound v => { s with roundInput := v }
  | Event.changeRest v => { s with restInput := v }
  | Event.changeRoundCount v => { s with roundCountInput := v }
  | Event.changeBell v => { s with bellSelect := v }

/-- A sequence of events, in order. -/
def runEvents (rnd : Nat → ℚ) (s : State) (es : List Event) : State :=
  es.foldl (step rnd) s

/-- The session left to run: `n` callbacks in a row, no user action. -/
def run (rnd : Nat → ℚ) : Nat → State → State
  | 0, s => s
  | n + 1, s => run rnd n (fire rnd s)

/-- The page before the script runs: nothing set, nothing shown. -/
def blank : State :=
  { running := false, paused := false, callTimer := none, roundTimer := none,
    restTimer := none, countdownInterval := none, currentRound := 0, roundsTotal := 0,
    modeSelect := "single", intensitySelect := "normal", minInput := none, maxInput := none,
    roundInput := none, restInput := none, roundCountInput := none, bellSelect := "ding",
    stateText := "", callText := "", roundNumberText := "", roundCountdownText := "",
    now := 0, nextId := 1, pending := [], nest := 0, draws := 0, trace := [], fired := [] }

/-- The page once the script is loaded: its last statement is `resetTraining()`. -/
def loaded : State := resetTraining blank

/-! ## Observations used in the statements -/

/-- Whether a callback is a closure of `scheduleNextCall`. -/
def isCall : Callback → Bool
  | Callback.call _ => true
  | _ => false

/-- The pending call-loop timeouts, the ones created by `scheduleNextCall`. -/
def callLoopTimers (s : State) : List Timer :=
  s.pending.filter (fun t => isCall t.cb)

/-- The Display writes and Announcer calls made between the state `s0` and the later
state `s`. -/
def since (s0 s : State) : List Effect := s.trace.drop s0.trace.length

/-- The oracle whose every draw is one half. -/
def half : Nat → ℚ := fun _ => 1 / 2

/-- The state with other values in the mode selector and in the round-time, rest-time and
round-count inputs. -/
@[simps]
def withInputs (m : String) (r q c : Option Int) (s : State) : State :=
  { s with modeSelect := m, roundInput := r, restInput := q, roundCountInput := c }

/-- Whether a callback begins a round: the rest-end closure and the restart closure, which
call `runNextRound` and `startTraining`. -/
def startsRound : Callback → Bool
  | Callback.restEnd => true
  | Callback.restart => true
  | _ => false

/-- Whether the callback that runs next begins a round. -/
def nextStartsRound (s : State) : Bool :=
  match nextTimer s.pending with
  | some t => startsRound t.cb
  | none => false

/-! ## Predicates of the proofs -/

/-- A handle variable is `null` or holds a handle not below `lo`. -/
def handleOK (lo : Nat) (h : Option Nat) : Prop := ∀ i, h = some i → lo ≤ i

/-- The handles below `lo` are out of reach of the script: the next handle and the four
handle variables are `lo` or above. -/
structure Safe (lo : Nat) (s : State) : Prop where
  next : lo ≤ s.nextId
  hc : handleOK lo s.callTimer
  hr : handleOK lo s.roundTimer
  hq : handleOK lo s.restTimer
  hi : handleOK lo s.countdownInterval

/-- From `s` to `t` the timers of handle below `lo` are untouched, no callback has run, and
the handles below `lo` are still out of reach. -/
structure Keeps (lo : Nat) (s t : State) : Prop where
  safe : Safe lo t
  mem : ∀ u : Timer, u.id < lo → (u ∈ t.pending ↔ u ∈ s.pending)
  fired : t.fired = s.fired
  next_le : s.nextId ≤ t.nextId
  ids : (∀ u ∈ s.pending, u.id < s.nextId) → ∀ u ∈ t.pending, u.id < t.nextId

/-- The handles in use are below the next handle: those of the pending timers and those of
the timers that have run. -/
structure WellFormed (s : State) : Prop where
  pending : ∀ t ∈ s.pending, t.id < s.nextId
  fired : ∀ j ∈ s.fired, j < s.nextId

/-- Whether a callback drives the session from one phase to the next: the round-start,
round-end and rest-end closures, and the restart closure. -/
def isCtl : Callback → Bool
  | Callback.roundStart _ _ _ => true
  | Callback.roundEnd _ => true
  | Callback.restEnd => true
  | Callback.restart => true
  | _ => false

/-- Whether a callback is one of the two countdown closures. -/
def isTick : Callback → Bool
  | Callback.roundTick _ => true
  | Callback.restTick _ => true
  | _ => false

/-- The shape of the timer table while a session runs undisturbed.  `c` is the phase timer
that is pending, if any; `p` is the table, `n` the next handle, `hc` and `hi` the values of
`callTimer` and `countdownInterval`. -/
structure Table (c : Option Timer) (p : List Timer) (n : Nat) (hc hi : Option Nat) : Prop where
  ids : ∀ t ∈ p, t.id < n
  uniq : ∀ t ∈ p, ∀ u ∈ p, t.id = u.id → t = u
  cmem : ∀ t, c = some t → t ∈ p ∧ isCtl t.cb = true ∧ t.cb ≠ Callback.restart
  only : ∀ t ∈ p, isCtl t.cb = true → c = some t
  per : ∀ t ∈ p, t.period = none ∨ (t.period = some 1000 ∧ isTick t.cb = true)
  hcall : ∀ t ∈ p, hc = some t.id → isCall t.cb = true
  hcd : ∀ t ∈ p, hi = some t.id → isTick t.cb = true
  hcl : ∀ i, hc = some i → i < n
  hil : ∀ i, hi = some i → i < n

end MmaTrainer

namespace MmaTrainer

theorem randFrom_mem (arr : List String) (r : ℚ) (hne : arr ≠ []) (h0 : 0 ≤ r) (h1 : r < 1) :
    ∃ x ∈ arr, randFrom arr r = some x := by
  have hlen : (0 : ℚ) < (arr.length : ℚ) := by
    have : 0 < arr.length := List.length_pos.mpr hne
    exact_mod_cast this
  have hnn : (0 : Int) ≤ ⌊r * (arr.length : ℚ)⌋ := Int.floor_nonneg.mpr (mul_nonneg h0 hlen.le)
  have hlt : ⌊r * (arr.length : ℚ)⌋ < (arr.length : Int) := by
    rw [Int.floor_lt]
    have : r * (arr.length : ℚ) < 1 * (arr.length : ℚ) := mul_lt_mul_of_pos_right h1 hlen
    simpa using this
  have hidx : (⌊r * (arr.length : ℚ)⌋).toNat < arr.length := by omega
  refine ⟨arr[(⌊r * (arr.length : ℚ)⌋).toNat], List.getElem_mem _, ?_⟩
  unfold randFrom
  simp only [not_lt.mpr hnn, if_false]
  exact List.getElem?_eq_getElem hidx

theorem lookupCounter_defense (d : String) (hd : d ∈ defenses) :
    ∃ c, simpleCounter.lookup d = some c ∧ c ≠ "" := by
  simp only [defenses, List.mem_cons, List.mem_singleton, List.not_mem_nil, or_false] at hd
  rcases hd with h | h | h | h | h | h | h | h <;> subst h <;> exact ⟨_, rfl, by decide⟩

/-- C7: for each of the seven modes and every outcome of the random draws, `getCallForMode`
returns a value of the vocabulary of the mode; in `counter_simple` the counter half is the
entry of `simpleCounter` for the generated defense whenever there is one. -/
theorem getCallForMode_in_vocabulary (rnd : Nat → ℚ) (k : Nat) (mode : String)
    (hr : ∀ i, 0 ≤ rnd i ∧ rnd i < 1)
    (hm : mode ∈ ["single", "combo", "mixed", "intensity", "defense", "counter_simple",
      "counter_combo"]) :
    inVocabulary mode (getCallForMode rnd k mode).1 := by
  have hs := fun i => randFrom_mem singles (rnd i) (by decide) (hr i).1 (hr i).2
  have hc := fun i => randFrom_mem combos (rnd i) (by decide) (hr i).1 (hr i).2
  have hd := fun i => randFrom_mem defenses (rnd i) (by decide) (hr i).1 (hr i).2
  simp only [List.mem_cons, List.mem_singleton, List.not_mem_nil, or_false] at hm
  rcases hm with h | h | h | h | h | h | h <;> subst h
  · obtain ⟨x, hx, he⟩ := hs k
    simp [inVocabulary, getCallForMode, he, hx]
  · obtain ⟨x, hx, he⟩ := hc k
    simp [inVocabulary, getCallForMode, he, hx]
  · obtain ⟨x, hx, he⟩ := hs (k + 1)
    obtain ⟨y, hy, he2⟩ := hc (k + 1)
    by_cases hcoin : (2 : ℚ)⁻¹ < rnd k
    · simp [inVocabulary, getCallForMode, he, hx, hcoin]
    · simp [inVocabulary, getCallForMode, he2, hy, hcoin]
  · obtain ⟨x, hx, he⟩ := hs k
    simp [inVocabulary, getCallForMode, he, hx]
  · obtain ⟨x, hx, he⟩ := hd k
    simp [inVocabulary, getCallForMode, he, hx]
  · obtain ⟨d, hdm, he⟩ := hd k
    obtain ⟨c, hl, hne⟩ := lookupCounter_defense d hdm
    simp [inVocabulary, getCallForMode, he, lookupCounter, jsStr, hl, hne]
    exact ⟨d, hdm, c, ⟨rfl, rfl⟩, fun m hm => by rw [hl] at hm; exact Option.some.inj hm⟩
  · obtain ⟨d, hdm, he⟩ := hd k
    obtain ⟨y, hy, he2⟩ := hc (k + 1)
    simp [inVocabulary, getCallForMode, he, hdm, he2, hy]

theorem getCallForMode_in_vocabulary_witness :
    inVocabulary "counter_simple" (getCallForMode (fun _ => 1 / 2) 0 "counter_simple").1 :=
  getCallForMode_in_vocabulary (fun _ => 1 / 2) 0 "counter_simple"
    (fun _ => by norm_num) (by decide)

end MmaTrainer

namespace MmaTrainer

set_option maxRecDepth 100000

/-- C3, the code at a failing input: in intensity mode the session is started, the round
begins (first call timeout due at 2250 ms), the user pauses at 1900 ms and resumes at 2000 ms.
The timeout of the interrupted loop was never cleared, so two call-loop timeouts are pending
(handles 4 and 7), and once both have run there are two again (handles 9 and 11): two call
loops run side by side. -/
theorem pause_resume_leaves_two_call_loops :
    (callLoopTimers (runEvents half loaded
        [Event.changeMode "intensity", Event.clickStart, Event.fire, Event.fire, Event.fire,
         Event.elapse 100, Event.clickPause, Event.elapse 100, Event.clickResume])).map Timer.id
      = [4, 7] ∧
    (callLoopTimers (runEvents half loaded
        [Event.changeMode "intensity", Event.clickStart, Event.fire, Event.fire, Event.fire,
         Event.elapse 100, Event.clickPause, Event.elapse 100, Event.clickResume,
         Event.fire, Event.fire])).map Timer.id
      = [9, 11] := by
  constructor <;> decide

/-- C4, the code at a failing input: the session is started and stopped 100 ms later, during
the ready bells.  The three timeouts of `startRoundSequence` are still pending after
`stopTraining`, and when they run the bell rings twice and the Display shows `Training` and
a countdown, although the session is not running. -/
theorem stop_leaves_ready_timers_pending :
    ((runEvents half loaded [Event.clickStart, Event.elapse 100, Event.clickStop]).pending.map
        Timer.cb
      = [Callback.bell, Callback.bell, Callback.roundStart "single" 60 20]) ∧
    since (runEvents half loaded [Event.clickStart, Event.elapse 100, Event.clickStop])
        (runEvents half loaded
          [Event.clickStart, Event.elapse 100, Event.clickStop, Event.fire, Event.fire,
           Event.fire])
      = [Effect.bell "ding", Effect.bell "ding", Effect.stateText "Training",
         Effect.countdown "01:00"] ∧
    (runEvents half loaded
          [Event.clickStart, Event.elapse 100, Event.clickStop, Event.fire, Event.fire,
           Event.fire]).running = false := by
  refine ⟨?_, ?_, ?_⟩ <;> decide

/-- C5, the code at a failing input: a round of 2 seconds in intensity mode, paused as soon as
it begins.  The call timeout and the two countdown ticks find `paused` set and do nothing, the
round timeout is not held back: the end bell and `Round Ended` come 2000 ms after the round
began, the countdown still showing `00:02`, never decremented. -/
theorem round_ends_while_paused_without_decrement :
    since loaded (runEvents half loaded
        [Event.changeRound (some 2), Event.changeMode "intensity", Event.clickStart,
         Event.fire, Event.fire, Event.fire, Event.clickPause,
         Event.fire, Event.fire, Event.fire, Event.fire])
      = [Effect.roundNumber "0", Effect.stateText "Starting", Effect.roundNumber "1",
         Effect.stateText "Get Ready...", Effect.callText "Get Ready", Effect.bell "ding",
         Effect.bell "ding", Effect.bell "ding", Effect.stateText "Training",
         Effect.countdown "00:02", Effect.stateText "Paused", Effect.speechCancel,
         Effect.bell "ding", Effect.stateText "Round Ended", Effect.callText "",
         Effect.countdown "00:20"] := by
  decide

/-- C8, as stated, fails for each of the fields it lists.  With every draw one half and the
default inputs:
* minimum delay: changed to 5 after the round has begun, the second call of the round becomes
  due at 7800 ms instead of 5800 ms;
* signal kind: changed to `gong` after the first ready bell, the second ready bell of the
  same round is a gong;
* intensity: changed to `fast` while paused (no restart), the call scheduled by the resume is
  due at 3150 ms instead of 3800 ms;
* mode: changed to `intensity` while paused (no restart), the resume schedules the calls of
  the new mode. -/
theorem config_changes_reach_the_round_in_flight :
    ((callLoopTimers (runEvents half loaded
        [Event.clickStart, Event.fire, Event.fire, Event.fire, Event.fire, Event.fire])).map
          Timer.fireAt = [5800] ∧
      (callLoopTimers (runEvents half loaded
        [Event.clickStart, Event.fire, Event.fire, Event.fire, Event.changeMin (some 5),
         Event.fire, Event.fire])).map Timer.fireAt = [7800]) ∧
    (since loaded (runEvents half loaded [Event.clickStart, Event.fire])
        = [Effect.roundNumber "0", Effect.stateText "Starting", Effect.roundNumber "1",
           Effect.stateText "Get Ready...", Effect.callText "Get Ready", Effect.bell "ding",
           Effect.bell "ding"] ∧
      since loaded (runEvents half loaded [Event.clickStart, Event.changeBell "gong", Event.fire])
        = [Effect.roundNumber "0", Effect.stateText "Starting", Effect.roundNumber "1",
           Effect.stateText "Get Ready...", Effect.callText "Get Ready", Effect.bell "ding",
           Effect.bell "gong"]) ∧
    ((callLoopTimers (runEvents half loaded
        [Event.clickStart, Event.fire, Event.fire, Event.fire, Event.clickPause,
         Event.clickResume])).map Timer.fireAt = [3800, 3800] ∧
      (callLoopTimers (runEvents half loaded
        [Event.clickStart, Event.fire, Event.fire, Event.fire, Event.clickPause,
         Event.changeIntensity "fast", Event.clickResume])).map Timer.fireAt = [3800, 3150]) ∧
    ((callLoopTimers (runEvents half loaded
        [Event.clickStart, Event.fire, Event.fire, Event.fire, Event.clickPause,
         Event.changeMode "intensity", Event.clickResume])).map Timer.cb
      = [Callback.call "single", Callback.call "intensity"]) := by
  refine ⟨⟨?_, ?_⟩, ⟨?_, ?_⟩, ⟨?_, ?_⟩, ?_⟩ <;> decide!

end MmaTrainer

namespace MmaTrainer

section frame
variable (rnd : Nat → ℚ) (m : String) (r q c : Option Int)

theorem scheduleNextCall_withInputs (cm : String) (s : State) :
    scheduleNextCall rnd cm (withInputs m r q c s)
      = withInputs m r q c (scheduleNextCall rnd cm s) := by
  simp only [scheduleNextCall, withInputs]
  split_ifs <;> rfl

theorem callFired_withInputs (cm : String) (s : State) :
    callFired rnd cm (withInputs m r q c s) = withInputs m r q c (callFired rnd cm s) := by
  unfold callFired
  by_cases h : (!s.running || s.paused) = true
  · have h2 : (!(withInputs m r q c s).running || (withInputs m r q c s).paused) = true := h
    rw [if_pos h, if_pos h2]
  · have h2 : ¬ (!(withInputs m r q c s).running || (withInputs m r q c s).paused) = true := h
    rw [if_neg h, if_neg h2]
    rw [← scheduleNextCall_withInputs]
    have hd : (withInputs m r q c s).draws = s.draws := rfl
    simp only [hd]
    cases (getCallForMode rnd s.draws cm).1 <;> rfl

theorem clearTimer_withInputs (h : Option Nat) (s : State) :
    clearTimer h (withInputs m r q c s) = withInputs m r q c (clearTimer h s) := rfl

theorem roundTickFired_withInputs (n : Int) (s : State) :
    roundTickFired n (withInputs m r q c s)
      = ((withInputs m r q c (roundTickFired n s).1), (roundTickFired n s).2) := by
  simp only [roundTickFired, withInputs]
  split_ifs <;> rfl

theorem restTickFired_withInputs (n : Int) (s : State) :
    restTickFired n (withInputs m r q c s)
      = ((withInputs m r q c (restTickFired n s).1), (restTickFired n s).2) := by
  simp only [restTickFired, withInputs]
  split_ifs <;> rfl

theorem roundEndFired_withInputs (n : Int) (s : State) :
    roundEndFired n (withInputs m r q c s) = withInputs m r q c (roundEndFired n s) := by
  unfold roundEndFired
  have : (withInputs m r q c s).callTimer = s.callTimer := rfl
  rw [this, clearTimer_withInputs]
  rfl

theorem roundStartFired_withInputs (cm : String) (a b : Int) (s : State) :
    roundStartFired rnd cm a b (withInputs m r q c s)
      = withInputs m r q c (roundStartFired rnd cm a b s) := by
  unfold roundStartFired
  have : setStateText "Training" (withInputs m r q c s)
      = withInputs m r q c (setStateText "Training" s) := rfl
  simp only [this, scheduleNextCall_withInputs]
  rfl

theorem runCallback_withInputs (cb : Callback) (s : State) (h : startsRound cb = false) :
    runCallback rnd cb (withInputs m r q c s)
      = (withInputs m r q c (runCallback rnd cb s).1, (runCallback rnd cb s).2) := by
  cases cb <;> simp only [startsRound] at h <;> simp only [runCallback]
  · rfl
  · rw [roundStartFired_withInputs]
  · rw [callFired_withInputs]
  · rfl
  · rfl
  · rw [roundTickFired_withInputs]
  · rw [roundEndFired_withInputs]
  · rw [restTickFired_withInputs]
  all_goals simp at h

theorem fireTimer_withInputs (t : Timer) (s : State) (h : startsRound t.cb = false) :
    fireTimer rnd t (withInputs m r q c s) = withInputs m r q c (fireTimer rnd t s) := by
  unfold fireTimer
  have e1 : dispatch t (withInputs m r q c s) = withInputs m r q c (dispatch t s) := rfl
  rw [e1, runCallback_withInputs rnd m r q c t.cb _ h]
  unfold rearm
  cases t.period with
  | none => rfl
  | some p =>
    simp only []
    have hp2 : ∀ u : State, (withInputs m r q c u).pending = u.pending := fun _ => rfl
    rw [hp2]
    split_ifs <;> rfl

theorem fire_withInputs (s : State) (h : nextStartsRound s = false) :
    fire rnd (withInputs m r q c s) = withInputs m r q c (fire rnd s) := by
  unfold fire
  have hp : (withInputs m r q c s).pending = s.pending := rfl
  rw [hp]
  unfold nextStartsRound at h
  cases hn : nextTimer s.pending with
  | none => rfl
  | some t =>
    rw [hn] at h
    exact fireTimer_withInputs rnd m r q c t s h

end frame

/-- C8, as amended: the callbacks of the round in flight read neither the mode selector nor
the round-time, rest-time and round-count inputs.  As long as none of the first `n` callbacks
that run is the rest-end closure or the restart closure (the two that begin a round), the
session left to run for `n` callbacks is the same whatever these four values were changed to,
apart from the four values themselves. -/
theorem round_in_flight_ignores_round_inputs (rnd : Nat → ℚ) (m : String)
    (r q c : Option Int) (n : Nat) (s : State)
    (h : ∀ k, k < n → nextStartsRound (run rnd k s) = false) :
    run rnd n (withInputs m r q c s) = withInputs m r q c (run rnd n s) := by
  induction n generalizing s with
  | zero => rfl
  | succ n ih =>
    have h0 := h 0 (Nat.succ_pos n)
    simp only [run] at h0 ⊢
    rw [fire_withInputs rnd m r q c s h0]
    exact ih (fire rnd s) (fun k hk => h (k + 1) (Nat.succ_lt_succ hk))

theorem round_in_flight_ignores_round_inputs_witness :
    run half 3 (withInputs "combo" (some 5) (some 7) (some 9) (startTraining loaded))
      = withInputs "combo" (some 5) (some 7) (some 9) (run half 3 (startTraining loaded)) :=
  round_in_flight_ignores_round_inputs half "combo" (some 5) (some 7) (some 9) 3
    (startTraining loaded) (by
      intro k hk
      have hk3 : k = 0 ∨ k = 1 ∨ k = 2 := by omega
      rcases hk3 with h | h | h <;> subst h <;> decide)

/-- C9: a change of mode while the session is running and not paused calls `stopTraining`
once and sets one timeout, due 120 ms later, whose closure calls `startTraining`; run on the
stopped session that closure sets `currentRound` to 0 and then to 1 and starts round 1.  A
change of mode while paused or while not running does neither and leaves `running`, `paused`,
`currentRound`, the timers and the Display as they are. -/
theorem mode_change_restarts_once (rnd : Nat → ℚ) (s : State) (v : String) :
    (s.running = true ∧ s.paused = false →
      (step rnd s (Event.changeMode v)).running = false ∧
      (step rnd s (Event.changeMode v)).paused = false ∧
      (step rnd s (Event.changeMode v)).trace
        = s.trace ++ [Effect.speechCancel, Effect.stateText "Stopped", Effect.callText "",
            Effect.roundNumber "0", Effect.countdown "00:00"] ∧
      (step rnd s (Event.changeMode v)).pending
        = (clearAllTimers s).pending ++
            [{ id := s.nextId, fireAt := s.now + 120, period := none, nest := 1,
               cb := Callback.restart }] ∧
      ∀ u : State, u.running = false →
        (runCallback rnd Callback.restart u).1.running = true ∧
        (runCallback rnd Callback.restart u).1.paused = false ∧
        (runCallback rnd Callback.restart u).1.currentRound = 1 ∧
        (runCallback rnd Callback.restart u).1.trace
          = u.trace ++ [Effect.roundNumber "0", Effect.stateText "Starting",
              Effect.roundNumber "1", Effect.stateText "Get Ready...",
              Effect.callText "Get Ready", Effect.bell u.bellSelect]) ∧
    (¬ (s.running = true ∧ s.paused = false) →
      (step rnd s (Event.changeMode v)).running = s.running ∧
      (step rnd s (Event.changeMode v)).paused = s.paused ∧
      (step rnd s (Event.changeMode v)).currentRound = s.currentRound ∧
      (step rnd s (Event.changeMode v)).pending = s.pending ∧
      (step rnd s (Event.changeMode v)).trace = s.trace) := by
  constructor
  · rintro ⟨hr, hp⟩
    have hs : step rnd s (Event.changeMode v)
        = setTimeout Callback.restart 120 (stopTraining { s with nest := 0, modeSelect := v }) := by
      simp [step, restartOnChange, hr, hp]
    rw [hs]
    refine ⟨rfl, rfl, ?_, ?_, ?_⟩
    · simp [setTimeout, stopTraining, setCountdownText, setRoundNumberText, setCallText,
        setStateText, emit, clearAllTimers, clearTimer]
    · simp [setTimeout, stopTraining, setCountdownText, setRoundNumberText, setCallText,
        setStateText, emit, clearAllTimers, clearTimer, clampDelay]
    · intro u hu
      have hu2 : (runCallback rnd Callback.restart u).1
          = startRoundSequence (setRoundNumberText "1" { setStateText "Starting"
              (setRoundNumberText "0"
                { u with running := true, paused := false, currentRound := 0 }) with
              currentRound := 1 }) := by
        simp [runCallback, startTraining, hu, runNextRound, setStateText, setRoundNumberText,
          emit]
        rfl
      rw [hu2]
      refine ⟨rfl, rfl, rfl, ?_⟩
      simp [startRoundSequence, setTimeout, playBell, setCallText, setStateText,
        setRoundNumberText, emit, clearAllTimers, clearTimer]
  · intro h
    have hs : step rnd s (Event.changeMode v) = { s with nest := 0, modeSelect := v } := by
      have : (s.running && !s.paused) = false := by
        cases hr : s.running <;> cases hp : s.paused <;> simp_all
      simp [step, restartOnChange, this]
    rw [hs]
    exact ⟨rfl, rfl, rfl, rfl, rfl⟩

theorem mode_change_restarts_once_witness :
    ((step half (startTraining loaded) (Event.changeMode "combo")).running = false ∧
      (step half (startTraining loaded) (Event.changeMode "combo")).paused = false ∧
      (step half (startTraining loaded) (Event.changeMode "combo")).trace
        = (startTraining loaded).trace ++ [Effect.speechCancel, Effect.stateText "Stopped",
            Effect.callText "", Effect.roundNumber "0", Effect.countdown "00:00"] ∧
      (step half (startTraining loaded) (Event.changeMode "combo")).pending
        = (clearAllTimers (startTraining loaded)).pending ++
            [{ id := (startTraining loaded).nextId, fireAt := (startTraining loaded).now + 120,
               period := none, nest := 1, cb := Callback.restart }] ∧
      ∀ u : State, u.running = false →
        (runCallback half Callback.restart u).1.running = true ∧
        (runCallback half Callback.restart u).1.paused = false ∧
        (runCallback half Callback.restart u).1.currentRound = 1 ∧
        (runCallback half Callback.restart u).1.trace
          = u.trace ++ [Effect.roundNumber "0", Effect.stateText "Starting",
              Effect.roundNumber "1", Effect.stateText "Get Ready...",
              Effect.callText "Get Ready", Effect.bell u.bellSelect]) ∧
    ((step half loaded (Event.changeMode "combo")).running = loaded.running ∧
      (step half loaded (Event.changeMode "combo")).paused = loaded.paused ∧
      (step half loaded (Event.changeMode "combo")).currentRound = loaded.currentRound ∧
      (step half loaded (Event.changeMode "combo")).pending = loaded.pending ∧
      (step half loaded (Event.changeMode "combo")).trace = loaded.trace) :=
  ⟨(mode_change_restarts_once half (startTraining loaded) "combo").1 ⟨by decide, by decide⟩,
   (mode_change_restarts_once half loaded "combo").2 (by decide)⟩

end MmaTrainer

namespace MmaTrainer

/-! ## The timer table -/

theorem mem_removeId {t : Timer} {i : Nat} {l : List Timer} :
    t ∈ removeId i l ↔ t ∈ l ∧ t.id ≠ i := by
  simp [removeId]

theorem mem_removeHandle {t : Timer} {h : Option Nat} {l : List Timer} :
    t ∈ removeHandle h l ↔ t ∈ l ∧ h ≠ some t.id := by
  cases h with
  | none => simp [removeHandle]
  | some i => simp [removeHandle, mem_removeId, eq_comm]

theorem nextTimer_mem {l : List Timer} {t : Timer} (h : nextTimer l = some t) : t ∈ l := by
  induction l generalizing t with
  | nil => simp [nextTimer] at h
  | cons a l ih =>
    simp only [nextTimer] at h
    cases hl : nextTimer l with
    | none =>
      rw [hl] at h
      simp only [Option.some.injEq] at h
      subst h
      exact List.mem_cons_self _ _
    | some u =>
      rw [hl] at h
      simp only [] at h
      split_ifs at h
      · simp only [Option.some.injEq] at h
        subst h
        exact List.mem_cons_self _ _
      · simp only [Option.some.injEq] at h
        subst h
        exact List.mem_cons_of_mem _ (ih hl)

end MmaTrainer

namespace MmaTrainer

/-! ## Timers out of reach of the script -/

theorem handleOK_none (lo : Nat) : handleOK lo none := by
  intro i h
  cases h

theorem handleOK_some {lo n : Nat} (h : lo ≤ n) : handleOK lo (some n) := by
  intro i hi
  cases hi
  exact h

theorem Keeps.refl {lo : Nat} {s : State} (hs : Safe lo s) : Keeps lo s s :=
  ⟨hs, fun _ _ => Iff.rfl, rfl, le_refl _, fun h => h⟩

theorem Keeps.trans {lo : Nat} {a b c : State} (h1 : Keeps lo a b)
    (h2 : Safe lo b → Keeps lo b c) : Keeps lo a c :=
  ⟨(h2 h1.safe).safe, fun u hu => ((h2 h1.safe).mem u hu).trans (h1.mem u hu),
    ((h2 h1.safe).fired).trans h1.fired, le_trans h1.next_le (h2 h1.safe).next_le,
    fun h => (h2 h1.safe).ids (h1.ids h)⟩

theorem Keeps.congr {lo : Nat} {s x y : State} (h : Keeps lo s x)
    (hp : y.pending = x.pending) (hn : y.nextId = x.nextId) (hf : y.fired = x.fired)
    (h1 : handleOK lo y.callTimer) (h2 : handleOK lo y.roundTimer)
    (h3 : handleOK lo y.restTimer) (h4 : handleOK lo y.countdownInterval) : Keeps lo s y :=
  ⟨⟨hn ▸ h.safe.next, h1, h2, h3, h4⟩, fun u hu => hp ▸ h.mem u hu, hf.trans h.fired,
    hn ▸ h.next_le, fun hw => hp ▸ hn ▸ h.ids hw⟩

theorem Keeps.of_eq {lo : Nat} {s t : State} (hs : Safe lo s)
    (hp : t.pending = s.pending) (hn : t.nextId = s.nextId) (hf : t.fired = s.fired)
    (h1 : t.callTimer = s.callTimer) (h2 : t.roundTimer = s.roundTimer)
    (h3 : t.restTimer = s.restTimer) (h4 : t.countdownInterval = s.countdownInterval) :
    Keeps lo s t :=
  (Keeps.refl hs).congr hp hn hf (h1 ▸ hs.hc) (h2 ▸ hs.hr) (h3 ▸ hs.hq) (h4 ▸ hs.hi)

theorem keeps_setTimeout {lo : Nat} {s : State} (cb : Callback) (d : Nat) (hs : Safe lo s) :
    Keeps lo s (setTimeout cb d s) := by
  refine ⟨⟨?_, hs.hc, hs.hr, hs.hq, hs.hi⟩, ?_, rfl, Nat.le_succ _, ?_⟩
  · simp only [setTimeout_nextId]
    exact Nat.le_succ_of_le hs.next
  · intro u hu
    simp only [setTimeout_pending, List.mem_append, List.mem_singleton]
    constructor
    · rintro (h | h)
      · exact h
      · subst h
        have := hs.next
        simp only [] at hu
        omega
    · exact Or.inl
  · intro hw u hu
    simp only [setTimeout_pending, List.mem_append, List.mem_singleton] at hu
    simp only [setTimeout_nextId]
    rcases hu with h | h
    · exact Nat.lt_succ_of_lt (hw u h)
    · subst h
      exact Nat.lt_succ_self _

theorem keeps_setInterval {lo : Nat} {s : State} (cb : Callback) (d : Nat) (hs : Safe lo s) :
    Keeps lo s (setInterval cb d s) := by
  refine ⟨⟨?_, hs.hc, hs.hr, hs.hq, hs.hi⟩, ?_, rfl, Nat.le_succ _, ?_⟩
  · simp only [setInterval_nextId]
    exact Nat.le_succ_of_le hs.next
  · intro u hu
    simp only [setInterval_pending, List.mem_append, List.mem_singleton]
    constructor
    · rintro (h | h)
      · exact h
      · subst h
        have := hs.next
        simp only [] at hu
        omega
    · exact Or.inl
  · intro hw u hu
    simp only [setInterval_pending, List.mem_append, List.mem_singleton] at hu
    simp only [setInterval_nextId]
    rcases hu with h | h
    · exact Nat.lt_succ_of_lt (hw u h)
    · subst h
      exact Nat.lt_succ_self _

theorem keeps_clearTimer {lo : Nat} {s : State} (h : Option Nat) (hh : handleOK lo h)
    (hs : Safe lo s) : Keeps lo s (clearTimer h s) := by
  refine ⟨⟨hs.next, hs.hc, hs.hr, hs.hq, hs.hi⟩, ?_, rfl, le_refl _,
    fun hw u hu => hw u (mem_removeHandle.mp hu).1⟩
  intro u hu
  simp only [clearTimer_pending, mem_removeHandle]
  constructor
  · exact fun h => h.1
  · intro hm
    refine ⟨hm, ?_⟩
    intro e
    have := hh _ e
    omega

theorem keeps_clearAllTimers {lo : Nat} {s : State} (hs : Safe lo s) :
    Keeps lo s (clearAllTimers s) := by
  unfold clearAllTimers
  have k1 : Keeps lo s { clearTimer s.callTimer s with callTimer := none } :=
    (keeps_clearTimer s.callTimer hs.hc hs).congr rfl rfl rfl (handleOK_none _) hs.hr hs.hq hs.hi
  have k2 := k1.trans (c := { clearTimer s.roundTimer
      { clearTimer s.callTimer s with callTimer := none } with roundTimer := none })
    (fun h => (keeps_clearTimer _ h.hr h).congr rfl rfl rfl h.hc (handleOK_none _) h.hq h.hi)
  have k3 := k2.trans (c := { clearTimer s.restTimer { clearTimer s.roundTimer
      { clearTimer s.callTimer s with callTimer := none } with roundTimer := none } with
      restTimer := none })
    (fun h => (keeps_clearTimer _ h.hq h).congr rfl rfl rfl h.hc h.hr (handleOK_none _) h.hi)
  exact k3.trans
    (fun h => (keeps_clearTimer _ h.hi h).congr rfl rfl rfl h.hc h.hr h.hq (handleOK_none _))

theorem keeps_scheduleNextCall {lo : Nat} {s : State} (rnd : Nat → ℚ) (m : String)
    (hs : Safe lo s) : Keeps lo s (scheduleNextCall rnd m s) := by
  unfold scheduleNextCall
  split_ifs
  · exact Keeps.refl hs
  · exact (keeps_setTimeout _ _ hs).congr rfl rfl rfl (handleOK_some hs.next) hs.hr hs.hq hs.hi
  · have k1 : Keeps lo s { s with draws := s.draws + 1 } :=
      Keeps.of_eq hs rfl rfl rfl rfl rfl rfl rfl
    exact (k1.trans (keeps_setTimeout _ _)).congr rfl rfl rfl (handleOK_some hs.next)
      hs.hr hs.hq hs.hi

theorem keeps_emit {lo : Nat} {s : State} (e : Effect) (hs : Safe lo s) :
    Keeps lo s (emit e s) :=
  Keeps.of_eq hs rfl rfl rfl rfl rfl rfl rfl

theorem keeps_setStateText {lo : Nat} {s : State} (v : String) (hs : Safe lo s) :
    Keeps lo s (setStateText v s) :=
  Keeps.of_eq hs rfl rfl rfl rfl rfl rfl rfl

theorem keeps_setCallText {lo : Nat} {s : State} (v : String) (hs : Safe lo s) :
    Keeps lo s (setCallText v s) :=
  Keeps.of_eq hs rfl rfl rfl rfl rfl rfl rfl

theorem keeps_setRoundNumberText {lo : Nat} {s : State} (v : String) (hs : Safe lo s) :
    Keeps lo s (setRoundNumberText v s) :=
  Keeps.of_eq hs rfl rfl rfl rfl rfl rfl rfl

theorem keeps_setCountdownText {lo : Nat} {s : State} (v : String) (hs : Safe lo s) :
    Keeps lo s (setCountdownText v s) :=
  Keeps.of_eq hs rfl rfl rfl rfl rfl rfl rfl

theorem keeps_updateCountdownDisplay {lo : Nat} {s : State} (n : Int) (hs : Safe lo s) :
    Keeps lo s (updateCountdownDisplay n s) :=
  Keeps.of_eq hs rfl rfl rfl rfl rfl rfl rfl

theorem keeps_playBell {lo : Nat} {s : State} (hs : Safe lo s) : Keeps lo s (playBell s) :=
  Keeps.of_eq hs rfl rfl rfl rfl rfl rfl rfl

theorem keeps_speak {lo : Nat} {s : State} (v : Option String) (hs : Safe lo s) :
    Keeps lo s (speak v s) :=
  Keeps.of_eq hs rfl rfl rfl rfl rfl rfl rfl

theorem keeps_flashVisual {lo : Nat} {s : State} (v : String) (hs : Safe lo s) :
    Keeps lo s (flashVisual v s) :=
  (keeps_emit _ hs).trans (keeps_setTimeout _ _)

theorem keeps_announceCall {lo : Nat} {s : State} (call : Call) (hs : Safe lo s) :
    Keeps lo s (announceCall call s) := by
  cases call with
  | simple c =>
    exact ((keeps_setCallText _ hs).trans (keeps_flashVisual _)).trans (keeps_speak _)
  | counter d c text =>
    exact (((keeps_setCallText _ hs).trans (keeps_flashVisual _)).trans (keeps_speak _)).trans
      (keeps_setTimeout _ _)

theorem keeps_callFired {lo : Nat} {s : State} (rnd : Nat → ℚ) (m : String) (hs : Safe lo s) :
    Keeps lo s (callFired rnd m s) := by
  unfold callFired
  split_ifs
  · exact Keeps.refl hs
  · have k1 : Keeps lo s { s with draws := (getCallForMode rnd s.draws m).2 } :=
      Keeps.of_eq hs rfl rfl rfl rfl rfl rfl rfl
    exact (k1.trans (keeps_announceCall _)).trans (keeps_scheduleNextCall rnd m)

theorem keeps_startRoundSequence {lo : Nat} {s : State} (hs : Safe lo s) :
    Keeps lo s (startRoundSequence s) := by
  unfold startRoundSequence
  have k1 : Keeps lo s { s with roundsTotal := orElseInt s.roundCountInput 0 } :=
    Keeps.of_eq hs rfl rfl rfl rfl rfl rfl rfl
  exact ((((((k1.trans keeps_clearAllTimers).trans (keeps_setStateText _)).trans
    (keeps_setCallText _)).trans keeps_playBell).trans (keeps_setTimeout _ _)).trans
    (keeps_setTimeout _ _)).trans (keeps_setTimeout _ _)

theorem keeps_roundStartFired {lo : Nat} {s : State} (rnd : Nat → ℚ) (m : String) (a b : Int)
    (hs : Safe lo s) : Keeps lo s (roundStartFired rnd m a b s) := by
  unfold roundStartFired
  have k1 := ((keeps_setStateText "Training" hs).trans (keeps_scheduleNextCall rnd m)).trans
    (keeps_updateCountdownDisplay a)
  have k2 := k1.trans (c := { setInterval (Callback.roundTick a) 1000
      (updateCountdownDisplay a (scheduleNextCall rnd m (setStateText "Training" s))) with
      countdownInterval := some
        (updateCountdownDisplay a (scheduleNextCall rnd m (setStateText "Training" s))).nextId })
    (fun h => (keeps_setInterval _ _ h).congr rfl rfl rfl h.hc h.hr h.hq (handleOK_some h.next))
  exact k2.trans
    (fun h => (keeps_setTimeout _ _ h).congr rfl rfl rfl h.hc (handleOK_some h.next) h.hq h.hi)

theorem keeps_roundTickFired {lo : Nat} {s : State} (n : Int) (hs : Safe lo s) :
    Keeps lo s (roundTickFired n s).1 := by
  unfold roundTickFired
  by_cases hp : s.paused = true
  · rw [if_pos hp]
    exact Keeps.refl hs
  · rw [if_neg hp]
    by_cases h0 : n - 1 ≤ 0
    · simp only [h0, if_true]
      exact (keeps_updateCountdownDisplay _ hs).trans (fun h => keeps_clearTimer _ h.hi h)
    · simp only [h0, if_false]
      exact keeps_updateCountdownDisplay _ hs

theorem keeps_restTickFired {lo : Nat} {s : State} (n : Int) (hs : Safe lo s) :
    Keeps lo s (restTickFired n s).1 := by
  unfold restTickFired
  by_cases hp : s.paused = true
  · rw [if_pos hp]
    exact Keeps.refl hs
  · rw [if_neg hp]
    by_cases h0 : n - 1 ≤ 0
    · simp only [h0, if_true]
      exact (keeps_updateCountdownDisplay _ hs).trans (fun h => keeps_clearTimer _ h.hi h)
    · simp only [h0, if_false]
      exact keeps_updateCountdownDisplay _ hs

theorem keeps_roundEndFired {lo : Nat} {s : State} (q : Int) (hs : Safe lo s) :
    Keeps lo s (roundEndFired q s) := by
  unfold roundEndFired
  have k0 : Keeps lo s { clearTimer s.callTimer s with callTimer := none } :=
    (keeps_clearTimer s.callTimer hs.hc hs).congr rfl rfl rfl (handleOK_none _) hs.hr hs.hq hs.hi
  have k1 := (((k0.trans keeps_playBell).trans (keeps_setStateText "Round Ended")).trans
    (keeps_setCallText "")).trans (keeps_updateCountdownDisplay q)
  have k2 := k1.trans (c := { setInterval (Callback.restTick q) 1000
      (updateCountdownDisplay q (setCallText "" (setStateText "Round Ended"
        (playBell { clearTimer s.callTimer s with callTimer := none })))) with
      countdownInterval := some
        (updateCountdownDisplay q (setCallText "" (setStateText "Round Ended"
        (playBell { clearTimer s.callTimer s with callTimer := none })))).nextId })
    (fun h => (keeps_setInterval _ _ h).congr rfl rfl rfl h.hc h.hr h.hq (handleOK_some h.next))
  exact k2.trans
    (fun h => (keeps_setTimeout _ _ h).congr rfl rfl rfl h.hc h.hr (handleOK_some h.next) h.hi)

theorem keeps_runNextRound {lo : Nat} {s : State} (hs : Safe lo s) :
    Keeps lo s (runNextRound s) := by
  unfold runNextRound
  split_ifs
  · exact Keeps.refl hs
  · have k1 : Keeps lo s { s with currentRound := s.currentRound + 1 } :=
      Keeps.of_eq hs rfl rfl rfl rfl rfl rfl rfl
    exact (k1.trans (keeps_setRoundNumberText _)).trans keeps_startRoundSequence

theorem keeps_startTraining {lo : Nat} {s : State} (hs : Safe lo s) :
    Keeps lo s (startTraining s) := by
  unfold startTraining
  split_ifs
  · exact Keeps.refl hs
  · have k1 : Keeps lo s { s with running := true, paused := false, currentRound := 0 } :=
      Keeps.of_eq hs rfl rfl rfl rfl rfl rfl rfl
    exact ((k1.trans (keeps_setRoundNumberText _)).trans (keeps_setStateText _)).trans
      keeps_runNextRound

theorem keeps_stopTraining {lo : Nat} {s : State} (hs : Safe lo s) :
    Keeps lo s (stopTraining s) := by
  unfold stopTraining
  have k1 : Keeps lo s { s with running := false, paused := false } :=
    Keeps.of_eq hs rfl rfl rfl rfl rfl rfl rfl
  exact (((((k1.trans keeps_clearAllTimers).trans (keeps_emit _)).trans
    (keeps_setStateText _)).trans (keeps_setCallText _)).trans
    (keeps_setRoundNumberText _)).trans (keeps_setCountdownText _)

theorem keeps_pauseTraining {lo : Nat} {s : State} (hs : Safe lo s) :
    Keeps lo s (pauseTraining s) := by
  unfold pauseTraining
  split_ifs
  · exact Keeps.refl hs
  · have k1 : Keeps lo s { s with paused := true } :=
      Keeps.of_eq hs rfl rfl rfl rfl rfl rfl rfl
    exact (k1.trans (keeps_setStateText _)).trans (keeps_emit _)

theorem keeps_resumeTraining {lo : Nat} {s : State} (rnd : Nat → ℚ) (hs : Safe lo s) :
    Keeps lo s (resumeTraining rnd s) := by
  unfold resumeTraining
  split_ifs
  · exact Keeps.refl hs
  · have k1 : Keeps lo s { s with paused := false } :=
      Keeps.of_eq hs rfl rfl rfl rfl rfl rfl rfl
    exact (k1.trans (keeps_setStateText _)).trans (keeps_scheduleNextCall rnd _)

theorem keeps_resetTraining {lo : Nat} {s : State} (hs : Safe lo s) :
    Keeps lo s (resetTraining s) := by
  unfold resetTraining
  have k1 := keeps_stopTraining hs
  have k2 : Keeps lo s { stopTraining s with
      minInput := some 1, maxInput := some 3, roundInput := some 60, restInput := some 20,
      roundCountInput := some 3, modeSelect := "single", intensitySelect := "normal",
      bellSelect := "ding" } :=
    k1.trans (fun h => Keeps.of_eq h rfl rfl rfl rfl rfl rfl rfl)
  have k3 := ((k2.trans (keeps_setStateText "Ready")).trans (keeps_setCallText "Ready")).trans
    (keeps_setCountdownText "00:00")
  have k4 := k3.trans (c := { setCountdownText "00:00" (setCallText "Ready"
      (setStateText "Ready" { stopTraining s with
        minInput := some 1, maxInput := some 3, roundInput := some 60, restInput := some 20,
        roundCountInput := some 3, modeSelect := "single", intensitySelect := "normal",
        bellSelect := "ding" })) with currentRound := 0 })
    (fun h => Keeps.of_eq h rfl rfl rfl rfl rfl rfl rfl)
  exact k4.trans (keeps_setRoundNumberText _)

theorem keeps_restEndFired {lo : Nat} {s : State} (hs : Safe lo s) :
    Keeps lo s (restEndFired s) := by
  unfold restEndFired
  have k0 : Keeps lo s { clearTimer s.restTimer s with restTimer := none } :=
    (keeps_clearTimer s.restTimer hs.hq hs).congr rfl rfl rfl hs.hc hs.hr (handleOK_none _) hs.hi
  simp only []
  split_ifs
  · exact (k0.trans keeps_stopTraining).trans (keeps_setStateText _)
  · exact k0.trans keeps_runNextRound

theorem keeps_restartOnChange {lo : Nat} {s : State} (hs : Safe lo s) :
    Keeps lo s (restartOnChange s) := by
  unfold restartOnChange
  split_ifs
  · exact (keeps_stopTraining hs).trans (keeps_setTimeout _ _)
  · exact Keeps.refl hs

theorem keeps_runCallback {lo : Nat} {s : State} (rnd : Nat → ℚ) (cb : Callback)
    (hs : Safe lo s) : Keeps lo s (runCallback rnd cb s).1 := by
  cases cb with
  | bell => exact keeps_playBell hs
  | roundStart m a b => exact keeps_roundStartFired rnd m a b hs
  | call m => exact keeps_callFired rnd m hs
  | speakCounter c => exact keeps_speak c hs
  | flashOff => exact keeps_emit _ hs
  | roundTick n => exact keeps_roundTickFired n hs
  | roundEnd q => exact keeps_roundEndFired q hs
  | restTick n => exact keeps_restTickFired n hs
  | restEnd => exact keeps_restEndFired hs
  | restart => exact keeps_startTraining hs

end MmaTrainer

namespace MmaTrainer

/-! ## The three ready bells come before the round -/

theorem keeps_elapse {lo : Nat} {s : State} (dt : Nat) (hs : Safe lo s) :
    Keeps lo s (elapse dt s) := by
  unfold elapse
  cases nextDue s <;> exact Keeps.of_eq hs rfl rfl rfl rfl rfl rfl rfl

theorem safe_zero (s : State) : Safe 0 s :=
  ⟨Nat.zero_le _, fun _ _ => Nat.zero_le _, fun _ _ => Nat.zero_le _,
   fun _ _ => Nat.zero_le _, fun _ _ => Nat.zero_le _⟩

theorem wellFormed_of_keeps {s t : State} (h : WellFormed s) (k : Keeps 0 s t) :
    WellFormed t :=
  ⟨k.ids h.pending, fun j hj => lt_of_lt_of_le (h.fired j (k.fired ▸ hj)) k.next_le⟩

theorem wellFormed_fire (rnd : Nat → ℚ) {s : State} (h : WellFormed s) :
    WellFormed (fire rnd s) := by
  unfold fire
  cases hn : nextTimer s.pending with
  | none => exact h
  | some u =>
    simp only []
    have hu := nextTimer_mem hn
    have hd : WellFormed (dispatch u s) := by
      refine ⟨?_, ?_⟩
      · intro t ht
        simp only [dispatch_pending] at ht
        simp only [dispatch_nextId]
        split_ifs at ht
        · exact h.pending t (mem_removeId.mp ht).1
        · exact h.pending t ht
      · intro j hj
        simp only [dispatch_fired, List.mem_append, List.mem_singleton] at hj
        simp only [dispatch_nextId]
        rcases hj with hj | hj
        · exact h.fired j hj
        · rw [hj]
          exact h.pending u hu
    have k := keeps_runCallback rnd u.cb (safe_zero (dispatch u s))
    have h2 := wellFormed_of_keeps hd k
    have hlt : u.id < (runCallback rnd u.cb (dispatch u s)).1.nextId :=
      lt_of_lt_of_le (h.pending u hu) k.next_le
    unfold fireTimer rearm
    cases u.period with
    | none => exact h2
    | some p =>
      simp only []
      split_ifs
      · refine ⟨?_, h2.fired⟩
        intro t ht
        rcases List.mem_append.mp ht with ht | ht
        · exact h2.pending t (mem_removeId.mp ht).1
        · rw [List.mem_singleton.mp ht]
          exact hlt
      · exact h2

theorem wellFormed_step (rnd : Nat → ℚ) (e : Event) {s : State} (h : WellFormed s) :
    WellFormed (step rnd s e) := by
  have k0 : Keeps 0 s { s with nest := 0 } :=
    Keeps.of_eq (safe_zero s) rfl rfl rfl rfl rfl rfl rfl
  cases e with
  | fire => exact wellFormed_fire rnd h
  | elapse dt => exact wellFormed_of_keeps h (keeps_elapse dt (safe_zero s))
  | clickStart => exact wellFormed_of_keeps h (k0.trans keeps_startTraining)
  | clickStop => exact wellFormed_of_keeps h (k0.trans keeps_stopTraining)
  | clickPause => exact wellFormed_of_keeps h (k0.trans keeps_pauseTraining)
  | clickResume => exact wellFormed_of_keeps h (k0.trans (keeps_resumeTraining rnd))
  | clickReset => exact wellFormed_of_keeps h (k0.trans keeps_resetTraining)
  | changeMode v =>
    have k1 : Keeps 0 s { s with nest := 0, modeSelect := v } :=
      Keeps.of_eq (safe_zero s) rfl rfl rfl rfl rfl rfl rfl
    exact wellFormed_of_keeps h (k1.trans keeps_restartOnChange)
  | changeIntensity v =>
    have k1 : Keeps 0 s { s with nest := 0, intensitySelect := v } :=
      Keeps.of_eq (safe_zero s) rfl rfl rfl rfl rfl rfl rfl
    exact wellFormed_of_keeps h (k1.trans keeps_restartOnChange)
  | changeMin v =>
    exact wellFormed_of_keeps h (Keeps.of_eq (safe_zero s) rfl rfl rfl rfl rfl rfl rfl)
  | changeMax v =>
    exact wellFormed_of_keeps h (Keeps.of_eq (safe_zero s) rfl rfl rfl rfl rfl rfl rfl)
  | changeRound v =>
    exact wellFormed_of_keeps h (Keeps.of_eq (safe_zero s) rfl rfl rfl rfl rfl rfl rfl)
  | changeRest v =>
    exact wellFormed_of_keeps h (Keeps.of_eq (safe_zero s) rfl rfl rfl rfl rfl rfl rfl)
  | changeRoundCount v =>
    exact wellFormed_of_keeps h (Keeps.of_eq (safe_zero s) rfl rfl rfl rfl rfl rfl rfl)
  | changeBell v =>
    exact wellFormed_of_keeps h (Keeps.of_eq (safe_zero s) rfl rfl rfl rfl rfl rfl rfl)

theorem wellFormed_loaded : WellFormed loaded :=
  ⟨by decide, by decide⟩

/-- Whatever happens to the loaded page, the handles in use stay below the next handle. -/
theorem wellFormed_runEvents (rnd : Nat → ℚ) (es : List Event) :
    WellFormed (runEvents rnd loaded es) := by
  have key : ∀ (l : List Event) (s : State), WellFormed s → WellFormed (runEvents rnd s l) := by
    intro l
    induction l with
    | nil => exact fun s h => h
    | cons e l ih => exact fun s h => ih _ (wellFormed_step rnd e h)
  exact key es loaded wellFormed_loaded

end MmaTrainer

namespace MmaTrainer

/-! ## The timer table of a session left to run -/

theorem isCtl_not_tick {cb : Callback} (h : isTick cb = true) : isCtl cb = false := by
  cases cb <;> simp_all [isTick, isCtl]

theorem isCall_not_tick {cb : Callback} (h : isTick cb = true) : isCall cb = false := by
  cases cb <;> simp_all [isTick, isCall]

/-- Once the phase timer has left the table no phase timer is pending. -/
theorem Table.drop {c : Timer} {p : List Timer} {n : Nat} {hc hi : Option Nat}
    (h : Table (some c) p n hc hi) : Table none (removeId c.id p) n hc hi := by
  have hsub : ∀ t ∈ removeId c.id p, t ∈ p := fun t ht => (mem_removeId.mp ht).1
  refine ⟨fun t ht => h.ids t (hsub t ht),
    fun t ht u hu => h.uniq t (hsub t ht) u (hsub u hu),
    fun t ht => (by cases ht),
    ?_,
    fun t ht => h.per t (hsub t ht),
    fun t ht => h.hcall t (hsub t ht),
    fun t ht => h.hcd t (hsub t ht),
    h.hcl, h.hil⟩
  intro t ht hctl
  have e := h.only t (hsub t ht) hctl
  simp only [Option.some.injEq] at e
  subst e
  exact absurd rfl (mem_removeId.mp ht).2

/-- A countdown interval that has run is set again under its handle. -/
theorem Table.rearm {c : Timer} {q : List Timer} {n : Nat} {hc hi : Option Nat}
    (h : Table (some c) q n hc hi) (u : Timer) (hu : u ∈ q) (hne : u ≠ c)
    (hp : u.period = some 1000) (v : Timer) (hid : v.id = u.id) (hper : v.period = some 1000)
    (htick : isTick v.cb = true) : Table (some c) (removeId u.id q ++ [v]) n hc hi := by
  have hsub : ∀ t ∈ removeId u.id q, t ∈ q := fun t ht => (mem_removeId.mp ht).1
  have hutick : isTick u.cb = true := by
    rcases h.per u hu with h1 | h1
    · rw [hp] at h1
      cases h1
    · exact h1.2
  refine ⟨?_, ?_, ?_, ?_, ?_, ?_, ?_, h.hcl, h.hil⟩
  · intro t ht
    rcases List.mem_append.mp ht with ht | ht
    · exact h.ids t (hsub t ht)
    · rw [List.mem_singleton.mp ht, hid]
      exact h.ids u hu
  · intro t ht w hw htw
    rcases List.mem_append.mp ht with ht | ht <;> rcases List.mem_append.mp hw with hw | hw
    · exact h.uniq t (hsub t ht) w (hsub w hw) htw
    · rw [List.mem_singleton.mp hw, hid] at htw
      exact absurd htw (mem_removeId.mp ht).2
    · rw [List.mem_singleton.mp ht, hid] at htw
      exact absurd htw.symm (mem_removeId.mp hw).2
    · rw [List.mem_singleton.mp ht, List.mem_singleton.mp hw]
  · intro t ht
    obtain ⟨hm, hctl, hres⟩ := h.cmem t ht
    simp only [Option.some.injEq] at ht
    subst ht
    refine ⟨List.mem_append_left _ (mem_removeId.mpr ⟨hm, ?_⟩), hctl, hres⟩
    intro e
    exact hne (h.uniq u hu c hm e.symm)
  · intro t ht hctl
    rcases List.mem_append.mp ht with ht | ht
    · exact h.only t (hsub t ht) hctl
    · rw [List.mem_singleton.mp ht, isCtl_not_tick htick] at hctl
      cases hctl
  · intro t ht
    rcases List.mem_append.mp ht with ht | ht
    · exact h.per t (hsub t ht)
    · rw [List.mem_singleton.mp ht]
      exact Or.inr ⟨hper, htick⟩
  · intro t ht e
    rcases List.mem_append.mp ht with ht | ht
    · exact h.hcall t (hsub t ht) e
    · rw [List.mem_singleton.mp ht, hid] at e
      have := h.hcall u hu e
      rw [isCall_not_tick hutick] at this
      cases this
  · intro t ht e
    rcases List.mem_append.mp ht with ht | ht
    · exact h.hcd t (hsub t ht) e
    · rw [List.mem_singleton.mp ht]
      exact htick

end MmaTrainer

namespace MmaTrainer

/-! ## The load of the timer table -/

end MmaTrainer

namespace MmaTrainer

/-! ## A session left to run: one callback -/

end MmaTrainer

namespace MmaTrainer

/-! ## A session left to run: the phase timers -/

end MmaTrainer

namespace MmaTrainer

/-! ## A session left to run: rounds -/

end MmaTrainer
